import Mathlib

/-!
Shallow embedding of `src/lambda/textract_comprehend_medical/app/main.py`.

The handler reads a Textract result object from S3, concatenates the page
texts, writes the concatenation back to S3 under a freshly generated job
name, and starts a Comprehend Medical ICD-10-CM inference job.  External
effects (S3 get/put, the Comprehend Medical call) are passed as oracles;
the handler returns the ordered list of service calls it made together
with its outcome (`none` = returned normally, `some e` = raised `e`).

The Textract JSON schema and the `trp` page model are external to this
repository and treated as an opaque contract: the S3 read oracle returns
the ordered list of page texts that `trp.Document(...).pages` would expose,
or an error (covering missing objects and parse failures alike).
-/

namespace TextractCM

/-- Errors a run can raise.  `runtimeError` models Python's
`RuntimeError('Invalid lambda event.')`, `keyError` a missing-dict-key
lookup, and `clientError` any failure surfaced by an AWS client call. -/
inductive Err where
  | runtimeError (msg : String)
  | keyError (key : String)
  | clientError (msg : String)
deriving DecidableEq

/-- The invocation event: the optional `textract_result` field, modelled as
a Python dict from string keys to string values (an association list).
A present empty dict is falsy in Python, like an absent field. -/
structure Event where
  textract_result : Option (List (String × String))
deriving DecidableEq

/-- Parameters of `start_icd10_cm_inference_job`.  Buckets are `Option`
because `urlparse(...).hostname` is `None` when the URI has no netloc,
and `os.getenv` is `None` when the variable is unset. -/
structure CMParams where
  inputBucket : Option String
  inputKey : String
  outputBucket : Option String
  outputKey : String
  jobName : String
  dataAccessRoleArn : Option String
  languageCode : String
deriving DecidableEq

/-- One external service call made by the handler, in the order issued. -/
inductive Call where
  | getObject (bucket : Option String) (key : String)
  | putObject (bucket : Option String) (key : String) (body : List UInt8)
  | startICD10CMInferenceJob (params : CMParams)
deriving DecidableEq

/-- A run's observable behaviour: the calls it issued, in order, and the
outcome (`none` = returned normally; `some e` = exception `e` propagated,
re-raised unmodified by the handler's `except` block). -/
structure HandlerOut where
  calls : List Call
  result : Option Err
deriving DecidableEq

/-- Python's `str.encode` with the default UTF-8 codec. -/
def strEncode (s : String) : List UInt8 := s.toUTF8.data.toList

/-- The characters after the first `://` scheme separator, or `none` when
the URI has none (then `urlparse` yields no netloc). -/
def afterSchemeSep : List Char → Option (List Char)
  | [] => none
  | ':' :: '/' :: '/' :: rest => some rest
  | _ :: cs => afterSchemeSep cs

/-- Split the netloc (up to the first `/`) from the path (the remainder,
keeping its leading `/`). -/
def splitHost : List Char → List Char × List Char
  | [] => ([], [])
  | c :: cs =>
    if c = '/' then ([], c :: cs)
    else
      let r := splitHost cs
      (c :: r.1, r.2)

/-- Model of `urllib.parse.urlparse` restricted to what the handler uses
on `s3://bucket/key`-shaped URIs: `.hostname` (the netloc up to the first
`/`, lowercased; `none` when the URI has no `://`) and `.path` (the
remainder, including its leading `/`). -/
def urlparseHostPath (url : String) : Option String × String :=
  match afterSchemeSep url.data with
  | none => (none, url)
  | some after =>
    let hp := splitHost after
    (some ⟨hp.1.map Char.toLower⟩, ⟨hp.2⟩)

/-- `urlparse(output_json).hostname` in the handler. -/
def bucketOf (url : String) : Option String := (urlparseHostPath url).1

/-- `urlparse(output_json).path[1:]` in the handler: Python slicing drops
the first code point. -/
def keyOf (url : String) : String := ⟨(urlparseHostPath url).2.data.drop 1⟩

/-- `job_name = f'job-{uuid.uuid4()}'`, with the random UUID token `u`
passed in explicitly. -/
def jobNameOf (u : String) : String := "job-" ++ u

/-- The argument record the handler passes to
`start_icd10_cm_inference_job`. -/
def cmParamsOf (bucket : Option String) (u : String) (role : Option String) : CMParams :=
  { inputBucket := bucket
    inputKey := jobNameOf u
    outputBucket := bucket
    outputKey := "cm-output/" ++ jobNameOf u
    jobName := jobNameOf u
    dataAccessRoleArn := role
    languageCode := "en" }

/-- The handler, line for line.  `u` is the random UUID token drawn by
`uuid.uuid4()`; `role` is `os.getenv('COMPREHEND_MEDICAL_ROLE')`; `store`,
`put` and `cm` are the S3 get, S3 put and Comprehend Medical oracles
(`store` folds in `json.loads` and `trp.Document`, returning page texts). -/
def handler (event : Event) (u : String) (role : Option String)
    (store : Option String → String → Except Err (List String))
    (put : Option String → String → List UInt8 → Option Err)
    (cm : CMParams → Option Err) : HandlerOut :=
  match event.textract_result with
  | some tr =>
    if tr.isEmpty then ⟨[], some (Err.runtimeError "Invalid lambda event.")⟩
    else
      match tr.lookup "TextractOutputJsonPath" with
      | none => ⟨[], some (Err.keyError "TextractOutputJsonPath")⟩
      | some output_json =>
        let bucket := bucketOf output_json
        let object_key := keyOf output_json
        match store bucket object_key with
        | Except.error e => ⟨[Call.getObject bucket object_key], some e⟩
        | Except.ok pages =>
          let job_name := jobNameOf u
          let text_content := pages.foldl (fun acc p => acc ++ p) ""
          match put bucket (job_name ++ "/result.txt") (strEncode text_content) with
          | some e =>
            ⟨[Call.getObject bucket object_key,
              Call.putObject bucket (job_name ++ "/result.txt") (strEncode text_content)],
             some e⟩
          | none =>
            let params := cmParamsOf bucket u role
            ⟨[Call.getObject bucket object_key,
              Call.putObject bucket (job_name ++ "/result.txt") (strEncode text_content),
              Call.startICD10CMInferenceJob params],
             cm params⟩
  | none => ⟨[], some (Err.runtimeError "Invalid lambda event.")⟩

/-! Concrete environments used by the end-to-end example and the witnesses:
an event referencing `s3://bucket1/path/to/result.json`, a store holding a
two-page document there, and put / Comprehend Medical stubs. -/

/-- The example input event of the spec. -/
def exEvent : Event :=
  ⟨some [("TextractOutputJsonPath", "s3://bucket1/path/to/result.json")]⟩

/-- The dict value of `textract_result` in `exEvent`. -/
def exTR : List (String × String) :=
  [("TextractOutputJsonPath", "s3://bucket1/path/to/result.json")]

/-- The locator URI in `exEvent`. -/
def exURL : String := "s3://bucket1/path/to/result.json"

/-- S3 read stub: the referenced object holds a two-page document with page
texts `"Hello "` and `"World"`; any other location is missing. -/
def exStore : Option String → String → Except Err (List String) := fun b k =>
  if b = some "bucket1" ∧ k = "path/to/result.json" then Except.ok ["Hello ", "World"]
  else Except.error (Err.clientError "NoSuchKey")

/-- S3 write stub that always succeeds. -/
def exPut : Option String → String → List UInt8 → Option Err := fun _ _ _ => none

/-- S3 write stub that always fails. -/
def exPutFail : Option String → String → List UInt8 → Option Err :=
  fun _ _ _ => some (Err.clientError "AccessDenied")

/-- Comprehend Medical stub that always accepts. -/
def exCM : CMParams → Option Err := fun _ => none

/-- Comprehend Medical stub that rejects a call whose `DataAccessRoleArn`
is `None`, as boto3 parameter validation does. -/
def exCMRoleCheck : CMParams → Option Err := fun p =>
  match p.dataAccessRoleArn with
  | none => some (Err.clientError "ParamValidationError")
  | some _ => none

example : bucketOf "s3://bucket1/path/to/result.json" = some "bucket1" := by decide
example : keyOf "s3://bucket1/path/to/result.json" = "path/to/result.json" := by decide
example : String.join ["Hello ", "World"] = "Hello World" := by decide
example (pages : List String) :
    pages.foldl (fun acc p => acc ++ p) "" = String.join pages := rfl
example : strEncode "Hi" = [72, 105] := by decide
example : jobNameOf "x" ++ "/result.txt" = "job-x/result.txt" := by decide

/-! Helper lemmas shared by the claim theorems. -/

theorem string_append_cancel_left {a u v : String} (h : a ++ u = a ++ v) : u = v := by
  obtain ⟨as⟩ := a
  obtain ⟨us⟩ := u
  obtain ⟨vs⟩ := v
  have h2 : as ++ us = as ++ vs := congrArg String.data h
  exact congrArg String.mk (List.append_cancel_left h2)

theorem string_append_cancel_right {u v s : String} (h : u ++ s = v ++ s) : u = v := by
  obtain ⟨us⟩ := u
  obtain ⟨vs⟩ := v
  obtain ⟨ss⟩ := s
  have h2 : us ++ ss = vs ++ ss := congrArg String.data h
  exact congrArg String.mk (List.append_cancel_right h2)

theorem jobNameOf_inj {u v : String} (h : jobNameOf u = jobNameOf v) : u = v :=
  string_append_cancel_left h

theorem resultKey_inj {u v : String}
    (h : jobNameOf u ++ "/result.txt" = jobNameOf v ++ "/result.txt") : u = v :=
  jobNameOf_inj (string_append_cancel_right h)

theorem foldl_append_eq_join (pages : List String) :
    pages.foldl (fun acc p => acc ++ p) "" = String.join pages := rfl

/-- A run that reaches the S3 read and fails there issues exactly the read
call and raises the read's error. -/
theorem handler_eq_of_store_err (tr : List (String × String)) (url : String)
    (u : String) (role : Option String)
    (store : Option String → String → Except Err (List String))
    (put : Option String → String → List UInt8 → Option Err)
    (cm : CMParams → Option Err) (e : Err)
    (htr : tr.isEmpty = false)
    (hkey : tr.lookup "TextractOutputJsonPath" = some url)
    (hstore : store (bucketOf url) (keyOf url) = Except.error e) :
    handler ⟨some tr⟩ u role store put cm =
      ⟨[Call.getObject (bucketOf url) (keyOf url)], some e⟩ := by
  simp [handler, htr, hkey, hstore]

/-- A run whose S3 write fails issues exactly the read and the write and
raises the write's error. -/
theorem handler_eq_of_put_err (tr : List (String × String)) (url : String)
    (pages : List String) (u : String) (role : Option String)
    (store : Option String → String → Except Err (List String))
    (put : Option String → String → List UInt8 → Option Err)
    (cm : CMParams → Option Err) (e : Err)
    (htr : tr.isEmpty = false)
    (hkey : tr.lookup "TextractOutputJsonPath" = some url)
    (hstore : store (bucketOf url) (keyOf url) = Except.ok pages)
    (hput : put (bucketOf url) (jobNameOf u ++ "/result.txt")
        (strEncode (pages.foldl (fun acc p => acc ++ p) "")) = some e) :
    handler ⟨some tr⟩ u role store put cm =
      ⟨[Call.getObject (bucketOf url) (keyOf url),
        Call.putObject (bucketOf url) (jobNameOf u ++ "/result.txt")
          (strEncode (pages.foldl (fun acc p => acc ++ p) ""))],
       some e⟩ := by
  simp [handler, htr, hkey, hstore, hput]

/-- A run whose S3 write succeeds issues the read, the write and the
Comprehend Medical submission, and its outcome is the submission's. -/
theorem handler_eq_of_put_ok (tr : List (String × String)) (url : String)
    (pages : List String) (u : String) (role : Option String)
    (store : Option String → String → Except Err (List String))
    (put : Option String → String → List UInt8 → Option Err)
    (cm : CMParams → Option Err)
    (htr : tr.isEmpty = false)
    (hkey : tr.lookup "TextractOutputJsonPath" = some url)
    (hstore : store (bucketOf url) (keyOf url) = Except.ok pages)
    (hput : put (bucketOf url) (jobNameOf u ++ "/result.txt")
        (strEncode (pages.foldl (fun acc p => acc ++ p) "")) = none) :
    handler ⟨some tr⟩ u role store put cm =
      ⟨[Call.getObject (bucketOf url) (keyOf url),
        Call.putObject (bucketOf url) (jobNameOf u ++ "/result.txt")
          (strEncode (pages.foldl (fun acc p => acc ++ p) "")),
        Call.startICD10CMInferenceJob (cmParamsOf (bucketOf url) u role)],
       cm (cmParamsOf (bucketOf url) u role)⟩ := by
  simp [handler, htr, hkey, hstore, hput]

/-- Every run issues one of the four call traces: nothing, read only,
read then write, or read then write then submission. -/
theorem handler_calls_shape (event : Event) (u : String) (role : Option String)
    (store : Option String → String → Except Err (List String))
    (put : Option String → String → List UInt8 → Option Err)
    (cm : CMParams → Option Err) :
    (handler event u role store put cm).calls = [] ∨
    (∃ b k, (handler event u role store put cm).calls = [Call.getObject b k]) ∨
    (∃ b k body, (handler event u role store put cm).calls =
      [Call.getObject b k,
       Call.putObject b (jobNameOf u ++ "/result.txt") body]) ∨
    (∃ b k body, (handler event u role store put cm).calls =
      [Call.getObject b k,
       Call.putObject b (jobNameOf u ++ "/result.txt") body,
       Call.startICD10CMInferenceJob (cmParamsOf b u role)]) := by
  obtain ⟨tres⟩ := event
  cases tres with
  | none => exact Or.inl rfl
  | some tr =>
    cases htr : tr.isEmpty with
    | true => left; simp [handler, htr]
    | false =>
      cases hkey : tr.lookup "TextractOutputJsonPath" with
      | none => left; simp [handler, htr, hkey]
      | some url =>
        cases hstore : store (bucketOf url) (keyOf url) with
        | error e =>
          exact Or.inr (Or.inl ⟨bucketOf url, keyOf url,
            by rw [handler_eq_of_store_err tr url u role store put cm e htr hkey hstore]⟩)
        | ok pages =>
          cases hput : put (bucketOf url) (jobNameOf u ++ "/result.txt")
              (strEncode (pages.foldl (fun acc p => acc ++ p) "")) with
          | some e =>
            exact Or.inr (Or.inr (Or.inl ⟨bucketOf url, keyOf url, _,
              by rw [handler_eq_of_put_err tr url pages u role store put cm e htr hkey hstore hput]⟩))
          | none =>
            exact Or.inr (Or.inr (Or.inr ⟨bucketOf url, keyOf url, _,
              by rw [handler_eq_of_put_ok tr url pages u role store put cm htr hkey hstore hput]⟩))

/-- A submission call in the trace pins the whole trace: read, write, then
the submission, whose parameters are exactly `cmParamsOf`. -/
theorem start_mem_calls (event : Event) (u : String) (role : Option String)
    (store : Option String → String → Except Err (List String))
    (put : Option String → String → List UInt8 → Option Err)
    (cm : CMParams → Option Err) (p : CMParams)
    (hmem : Call.startICD10CMInferenceJob p ∈ (handler event u role store put cm).calls) :
    ∃ b k body, (handler event u role store put cm).calls =
      [Call.getObject b k,
       Call.putObject b (jobNameOf u ++ "/result.txt") body,
       Call.startICD10CMInferenceJob (cmParamsOf b u role)] ∧
      p = cmParamsOf b u role := by
  rcases handler_calls_shape event u role store put cm with
    h | ⟨b, k, h⟩ | ⟨b, k, body, h⟩ | ⟨b, k, body, h⟩ <;> rw [h] at hmem
  · simp at hmem
  · simp at hmem
  · simp at hmem
  · refine ⟨b, k, body, h, ?_⟩
    simpa using hmem

/-- A write call in the trace carries the key `{job_name}/result.txt`. -/
theorem put_key_of_mem (event : Event) (u : String) (role : Option String)
    (store : Option String → String → Except Err (List String))
    (put : Option String → String → List UInt8 → Option Err)
    (cm : CMParams → Option Err) (b : Option String) (k : String) (body : List UInt8)
    (hmem : Call.putObject b k body ∈ (handler event u role store put cm).calls) :
    k = jobNameOf u ++ "/result.txt" := by
  rcases handler_calls_shape event u role store put cm with
    h | ⟨b', k', h⟩ | ⟨b', k', body', h⟩ | ⟨b', k', body', h⟩ <;> rw [h] at hmem
  · simp at hmem
  · simp at hmem
  · simp at hmem
    exact hmem.2.1
  · simp at hmem
    exact hmem.2.1

/-! The claim theorems. -/

/-- C1: whenever the stored structured result yields the page texts
`pages`, the body the handler persists is the UTF-8 encoding of the
concatenation of the pages' texts in index order with no separator
(`String.join`), and zero pages give the empty string. -/
theorem c1_persisted_blob_is_ordered_concat
    (tr : List (String × String)) (url : String) (pages : List String)
    (u : String) (role : Option String)
    (store : Option String → String → Except Err (List String))
    (put : Option String → String → List UInt8 → Option Err)
    (cm : CMParams → Option Err)
    (htr : tr.isEmpty = false)
    (hkey : tr.lookup "TextractOutputJsonPath" = some url)
    (hstore : store (bucketOf url) (keyOf url) = Except.ok pages) :
    Call.putObject (bucketOf url) (jobNameOf u ++ "/result.txt")
        (strEncode (String.join pages)) ∈
      (handler ⟨some tr⟩ u role store put cm).calls ∧
    (pages = [] → String.join pages = "") := by
  refine ⟨?_, fun h => by rw [h]; rfl⟩
  rw [← foldl_append_eq_join]
  cases hput : put (bucketOf url) (jobNameOf u ++ "/result.txt")
      (strEncode (pages.foldl (fun acc p => acc ++ p) "")) with
  | some e =>
    rw [handler_eq_of_put_err tr url pages u role store put cm e htr hkey hstore hput]
    simp
  | none =>
    rw [handler_eq_of_put_ok tr url pages u role store put cm htr hkey hstore hput]
    simp

theorem c1_persisted_blob_is_ordered_concat_witness :
    Call.putObject (bucketOf exURL) (jobNameOf "w1" ++ "/result.txt")
        (strEncode (String.join ["Hello ", "World"])) ∈
      (handler ⟨some exTR⟩ "w1" none exStore exPut exCM).calls ∧
    (["Hello ", "World"] = ([] : List String) → String.join ["Hello ", "World"] = "") :=
  c1_persisted_blob_is_ordered_concat exTR exURL ["Hello ", "World"] "w1" none
    exStore exPut exCM (by decide) (by decide) rfl

/-- C2: on the spec's example event, with two pages `"Hello "` and
`"World"` stored at `s3://bucket1/path/to/result.json`, the handler issues
exactly: a read of that object, a write of the UTF-8 bytes of
`"Hello World"` to bucket `bucket1` under key `{job_name}/result.txt`, and
a submission with input `S3Bucket=bucket1, S3Key={job_name}` and output
`S3Bucket=bucket1, S3Key=cm-output/{job_name}`, then returns normally. -/
theorem c2_end_to_end_example (u : String) (role : Option String) :
    handler exEvent u role exStore exPut exCM =
      ⟨[Call.getObject (some "bucket1") "path/to/result.json",
        Call.putObject (some "bucket1") (jobNameOf u ++ "/result.txt")
          (strEncode "Hello World"),
        Call.startICD10CMInferenceJob
          { inputBucket := some "bucket1"
            inputKey := jobNameOf u
            outputBucket := some "bucket1"
            outputKey := "cm-output/" ++ jobNameOf u
            jobName := jobNameOf u
            dataAccessRoleArn := role
            languageCode := "en" }],
       none⟩ := rfl

/-- C3: an event whose `textract_result` field is absent is rejected with
`RuntimeError('Invalid lambda event.')` and zero storage or service calls. -/
theorem c3_missing_field_rejected_without_side_effects
    (u : String) (role : Option String)
    (store : Option String → String → Except Err (List String))
    (put : Option String → String → List UInt8 → Option Err)
    (cm : CMParams → Option Err) :
    handler ⟨none⟩ u role store put cm =
      ⟨[], some (Err.runtimeError "Invalid lambda event.")⟩ := rfl

/-- C4: in every run whose trace contains the inference-job submission,
the trace splits around an S3 write that occurs strictly before it. -/
theorem c4_write_before_submit (event : Event) (u : String) (role : Option String)
    (store : Option String → String → Except Err (List String))
    (put : Option String → String → List UInt8 → Option Err)
    (cm : CMParams → Option Err) (p : CMParams)
    (hmem : Call.startICD10CMInferenceJob p ∈ (handler event u role store put cm).calls) :
    ∃ pre b body rest,
      (handler event u role store put cm).calls =
        pre ++ Call.putObject b (jobNameOf u ++ "/result.txt") body :: rest ∧
      Call.startICD10CMInferenceJob p ∈ rest := by
  obtain ⟨b, k, body, h, hp⟩ := start_mem_calls event u role store put cm p hmem
  exact ⟨[Call.getObject b k], b, body,
    [Call.startICD10CMInferenceJob (cmParamsOf b u role)], h, by rw [hp]; simp⟩

theorem c4_write_before_submit_witness :
    ∃ pre b body rest,
      (handler exEvent "w4" none exStore exPut exCM).calls =
        pre ++ Call.putObject b (jobNameOf "w4" ++ "/result.txt") body :: rest ∧
      Call.startICD10CMInferenceJob (cmParamsOf (some "bucket1") "w4" none) ∈ rest :=
  c4_write_before_submit exEvent "w4" none exStore exPut exCM
    (cmParamsOf (some "bucket1") "w4" none) (by decide)

/-- C5: when the S3 write raises `e`, the submission call is never made
and the run re-raises exactly `e`, unmodified. -/
theorem c5_put_failure_propagates
    (tr : List (String × String)) (url : String) (pages : List String)
    (u : String) (role : Option String)
    (store : Option String → String → Except Err (List String))
    (put : Option String → String → List UInt8 → Option Err)
    (cm : CMParams → Option Err) (e : Err)
    (htr : tr.isEmpty = false)
    (hkey : tr.lookup "TextractOutputJsonPath" = some url)
    (hstore : store (bucketOf url) (keyOf url) = Except.ok pages)
    (hput : put (bucketOf url) (jobNameOf u ++ "/result.txt")
        (strEncode (pages.foldl (fun acc p => acc ++ p) "")) = some e) :
    (handler ⟨some tr⟩ u role store put cm).result = some e ∧
    ∀ q, Call.startICD10CMInferenceJob q ∉ (handler ⟨some tr⟩ u role store put cm).calls := by
  rw [handler_eq_of_put_err tr url pages u role store put cm e htr hkey hstore hput]
  exact ⟨rfl, by intro q; simp⟩

theorem c5_put_failure_propagates_witness :
    (handler ⟨some exTR⟩ "w5" none exStore exPutFail exCM).result =
      some (Err.clientError "AccessDenied") ∧
    ∀ q, Call.startICD10CMInferenceJob q ∉
      (handler ⟨some exTR⟩ "w5" none exStore exPutFail exCM).calls :=
  c5_put_failure_propagates exTR exURL ["Hello ", "World"] "w5" none
    exStore exPutFail exCM (Err.clientError "AccessDenied")
    (by decide) (by decide) rfl rfl

/-- C6: two runs over the same event and oracles whose random tokens
differ submit distinct job names and write under distinct keys. -/
theorem c6_distinct_tokens_no_collision (event : Event) (u₁ u₂ : String)
    (role : Option String)
    (store : Option String → String → Except Err (List String))
    (put : Option String → String → List UInt8 → Option Err)
    (cm : CMParams → Option Err)
    (hu : u₁ ≠ u₂) :
    (∀ p₁ p₂,
      Call.startICD10CMInferenceJob p₁ ∈ (handler event u₁ role store put cm).calls →
      Call.startICD10CMInferenceJob p₂ ∈ (handler event u₂ role store put cm).calls →
      p₁.jobName ≠ p₂.jobName) ∧
    (∀ b₁ k₁ body₁ b₂ k₂ body₂,
      Call.putObject b₁ k₁ body₁ ∈ (handler event u₁ role store put cm).calls →
      Call.putObject b₂ k₂ body₂ ∈ (handler event u₂ role store put cm).calls →
      k₁ ≠ k₂) := by
  constructor
  · intro p₁ p₂ h₁ h₂ heq
    obtain ⟨b₁, k₁, body₁, _, hp₁⟩ := start_mem_calls event u₁ role store put cm p₁ h₁
    obtain ⟨b₂, k₂, body₂, _, hp₂⟩ := start_mem_calls event u₂ role store put cm p₂ h₂
    rw [hp₁, hp₂] at heq
    exact hu (jobNameOf_inj heq)
  · intro b₁ k₁ body₁ b₂ k₂ body₂ h₁ h₂ heq
    rw [put_key_of_mem event u₁ role store put cm b₁ k₁ body₁ h₁,
        put_key_of_mem event u₂ role store put cm b₂ k₂ body₂ h₂] at heq
    exact hu (resultKey_inj heq)

theorem c6_distinct_tokens_no_collision_witness :
    (cmParamsOf (some "bucket1") "w6a" none).jobName ≠
      (cmParamsOf (some "bucket1") "w6b" none).jobName :=
  (c6_distinct_tokens_no_collision exEvent "w6a" "w6b" none exStore exPut exCM
      (by decide)).1
    (cmParamsOf (some "bucket1") "w6a" none)
    (cmParamsOf (some "bucket1") "w6b" none)
    (by decide) (by decide)

/-- C7: every submission the handler makes carries the freshly generated
job name as `JobName`, input key equal to the job name in the input's
bucket, output key `cm-output/{job_name}` in the same bucket, the role
from process configuration, and language code `en`. -/
theorem c7_submission_parameters (event : Event) (u : String) (role : Option String)
    (store : Option String → String → Except Err (List String))
    (put : Option String → String → List UInt8 → Option Err)
    (cm : CMParams → Option Err) (p : CMParams)
    (hmem : Call.startICD10CMInferenceJob p ∈ (handler event u role store put cm).calls) :
    p.jobName = jobNameOf u ∧
    p.inputKey = jobNameOf u ∧
    p.outputBucket = p.inputBucket ∧
    p.outputKey = "cm-output/" ++ jobNameOf u ∧
    p.dataAccessRoleArn = role ∧
    p.languageCode = "en" ∧
    ∃ k, Call.getObject p.inputBucket k ∈ (handler event u role store put cm).calls := by
  obtain ⟨b, k, body, h, hp⟩ := start_mem_calls event u role store put cm p hmem
  subst hp
  refine ⟨rfl, rfl, rfl, rfl, rfl, rfl, k, ?_⟩
  rw [h]
  simp [cmParamsOf]

theorem c7_submission_parameters_witness :
    (cmParamsOf (some "bucket1") "w7" none).jobName = jobNameOf "w7" ∧
    (cmParamsOf (some "bucket1") "w7" none).inputKey = jobNameOf "w7" ∧
    (cmParamsOf (some "bucket1") "w7" none).outputBucket =
      (cmParamsOf (some "bucket1") "w7" none).inputBucket ∧
    (cmParamsOf (some "bucket1") "w7" none).outputKey = "cm-output/" ++ jobNameOf "w7" ∧
    (cmParamsOf (some "bucket1") "w7" none).dataAccessRoleArn = none ∧
    (cmParamsOf (some "bucket1") "w7" none).languageCode = "en" ∧
    ∃ k, Call.getObject (cmParamsOf (some "bucket1") "w7" none).inputBucket k ∈
      (handler exEvent "w7" none exStore exPut exCM).calls :=
  c7_submission_parameters exEvent "w7" none exStore exPut exCM
    (cmParamsOf (some "bucket1") "w7" none) (by decide)

/-- C8: with the role environment variable unset (`none`), the handler
still performs the read and the write, then makes the submission call with
`DataAccessRoleArn = none`; when that call fails, its error propagates. -/
theorem c8_missing_role_fails_at_submission
    (tr : List (String × String)) (url : String) (pages : List String)
    (u : String)
    (store : Option String → String → Except Err (List String))
    (put : Option String → String → List UInt8 → Option Err)
    (cm : CMParams → Option Err) (e : Err)
    (htr : tr.isEmpty = false)
    (hkey : tr.lookup "TextractOutputJsonPath" = some url)
    (hstore : store (bucketOf url) (keyOf url) = Except.ok pages)
    (hput : put (bucketOf url) (jobNameOf u ++ "/result.txt")
        (strEncode (pages.foldl (fun acc p => acc ++ p) "")) = none)
    (hcm : cm (cmParamsOf (bucketOf url) u none) = some e) :
    handler ⟨some tr⟩ u none store put cm =
      ⟨[Call.getObject (bucketOf url) (keyOf url),
        Call.putObject (bucketOf url) (jobNameOf u ++ "/result.txt")
          (strEncode (pages.foldl (fun acc p => acc ++ p) "")),
        Call.startICD10CMInferenceJob (cmParamsOf (bucketOf url) u none)],
       some e⟩ ∧
    (cmParamsOf (bucketOf url) u none).dataAccessRoleArn = none := by
  refine ⟨?_, rfl⟩
  rw [handler_eq_of_put_ok tr url pages u none store put cm htr hkey hstore hput, hcm]

theorem c8_missing_role_fails_at_submission_witness :
    handler ⟨some exTR⟩ "w8" none exStore exPut exCMRoleCheck =
      ⟨[Call.getObject (bucketOf exURL) (keyOf exURL),
        Call.putObject (bucketOf exURL) (jobNameOf "w8" ++ "/result.txt")
          (strEncode ((["Hello ", "World"] : List String).foldl
            (fun acc p => acc ++ p) "")),
        Call.startICD10CMInferenceJob (cmParamsOf (bucketOf exURL) "w8" none)],
       some (Err.clientError "ParamValidationError")⟩ ∧
    (cmParamsOf (bucketOf exURL) "w8" none).dataAccessRoleArn = none :=
  c8_missing_role_fails_at_submission exTR exURL ["Hello ", "World"] "w8"
    exStore exPut exCMRoleCheck (Err.clientError "ParamValidationError")
    (by decide) (by decide) rfl rfl rfl

/-- C9: a present but falsy (empty-dict) `textract_result` is rejected
exactly like an absent one: same invalid-input error, zero calls — the
guard tests truthiness, not presence. -/
theorem c9_falsy_field_rejected_like_absent
    (tr : List (String × String)) (u : String) (role : Option String)
    (store : Option String → String → Except Err (List String))
    (put : Option String → String → List UInt8 → Option Err)
    (cm : CMParams → Option Err)
    (htr : tr.isEmpty = true) :
    handler ⟨some tr⟩ u role store put cm =
      ⟨[], some (Err.runtimeError "Invalid lambda event.")⟩ ∧
    handler ⟨some tr⟩ u role store put cm = handler ⟨none⟩ u role store put cm := by
  have h : handler ⟨some tr⟩ u role store put cm =
      ⟨[], some (Err.runtimeError "Invalid lambda event.")⟩ := by
    simp [handler, htr]
  exact ⟨h, h.trans rfl⟩

theorem c9_falsy_field_rejected_like_absent_witness :
    handler ⟨some []⟩ "w9" none exStore exPut exCM =
      ⟨[], some (Err.runtimeError "Invalid lambda event.")⟩ ∧
    handler ⟨some []⟩ "w9" none exStore exPut exCM =
      handler ⟨none⟩ "w9" none exStore exPut exCM :=
  c9_falsy_field_rejected_like_absent [] "w9" none exStore exPut exCM (by decide)

/-- C10: a truthy `textract_result` lacking the `TextractOutputJsonPath`
key fails before any call, with a missing-key lookup error distinct from
the explicit invalid-input error, and that error is the run's outcome. -/
theorem c10_missing_key_raises_lookup_error
    (tr : List (String × String)) (u : String) (role : Option String)
    (store : Option String → String → Except Err (List String))
    (put : Option String → String → List UInt8 → Option Err)
    (cm : CMParams → Option Err)
    (htr : tr.isEmpty = false)
    (hkey : tr.lookup "TextractOutputJsonPath" = none) :
    handler ⟨some tr⟩ u role store put cm =
      ⟨[], some (Err.keyError "TextractOutputJsonPath")⟩ ∧
    Err.keyError "TextractOutputJsonPath" ≠
      Err.runtimeError "Invalid lambda event." := by
  exact ⟨by simp [handler, htr, hkey], by simp⟩

theorem c10_missing_key_raises_lookup_error_witness :
    handler ⟨some [("other_key", "v")]⟩ "w10" none exStore exPut exCM =
      ⟨[], some (Err.keyError "TextractOutputJsonPath")⟩ ∧
    Err.keyError "TextractOutputJsonPath" ≠
      Err.runtimeError "Invalid lambda event." :=
  c10_missing_key_raises_lookup_error [("other_key", "v")] "w10" none
    exStore exPut exCM (by decide) (by decide)

end TextractCM
